import Mathlib

/-!
Verification development for the hand-written AWS client runtime of the
cloudydeno aws-api repository. The definitions below are shallow embeddings
of the TypeScript source in client/client.ts (BaseApiFactory, the shared
performRequest dispatch, handleErrorResponse, getRootDomain, and the three
protocol clients). JavaScript strings are modelled as Lean String values;
undefined/null option fields as Option; machine behaviour such as
JavaScript truthiness is made explicit. Functions that throw are modelled
as Except or as result types whose constructors enumerate the throw sites.
-/

namespace AwsApi

/-! ## JavaScript string and option helpers -/

/-- JavaScript truthiness of a string: every string except the empty one. -/
def jsTruthyStr (s : String) : Bool := s ≠ ""

/-- JavaScript truthiness of an optional string field: present and non-empty.
Used to model conditions written as plain if tests on possibly-undefined
string fields in the source. -/
def optTruthy (o : Option String) : Bool :=
  match o with
  | none => false
  | some s => jsTruthyStr s

/-- Model of the JavaScript startsWith test, computed on character lists. -/
def startsWithStr (s pre : String) : Bool := decide (pre.data <+: s.data)

/-- Model of the JavaScript endsWith test, computed on character lists. -/
def endsWithStr (s suf : String) : Bool := decide (suf.data <:+ s.data)

/-- startsWith lifted to an optional string, false when the field is absent,
matching the optional-chaining call ct?.startsWith(p) in the source. -/
def optStartsWith (o : Option String) (pre : String) : Bool :=
  match o with
  | none => false
  | some s => startsWithStr s pre

/-- The JavaScript test for an absent content type: null or the empty string
are both falsy. -/
def ctFalsy (o : Option String) : Bool :=
  match o with
  | none => true
  | some s => s = ""

theorem data_append (a b : String) : (a ++ b).data = a.data ++ b.data :=
  String.data_append a b

theorem append_data_head (c : Char) (l : List Char) (pre rest : String)
    (h : pre.data = c :: l) : (pre ++ rest).data.head? = some c := by
  rw [data_append, h]; rfl

theorem string_ne_of_head (a b : String) (h : a.data.head? ≠ b.data.head?) :
    a ≠ b := fun e => h (by rw [e])

/-! ## Endpoint partition selection (getRootDomain in client/client.ts) -/

/-- The fixed allow-list of regions where EC2 historically offered
dual-stack addressing, verbatim from the source (dualStackEc2Regions). -/
def dualStackEc2Regions : List String :=
  ["us-east-1", "us-east-2", "us-west-2", "eu-west-1", "ap-south-1", "sa-east-1"]

/-- Translation of getRootDomain(serviceId, region = us-east-1): the EC2
dual-stack allow-list check first, then partition selection by region
prefix, else the standard commercial domain. -/
def getRootDomain (serviceId : String) (region : String := "us-east-1") : String :=
  if serviceId == "EC2" && dualStackEc2Regions.contains region then "aws"
  else if startsWithStr region "cn-" then "amazonaws.com.cn"
  else if startsWithStr region "us-iso-" then "c2s.ic.gov"
  else if startsWithStr region "us-isob-" then "sc2s.sgov.gov"
  else "amazonaws.com"

/-- The static per-service facts consumed by buildServiceClient. Field
endpointPfx embeds the endpointPrefix metadata field under a shortened
name. -/
structure ApiMetadataM where
  serviceId : String
  endpointPfx : String
  globalEndpoint : Option String := none

/-- The endpoint-prefix choice made at the top of buildServiceClient:
serviceId S3 switches to the s3.dualstack prefix, every other service
keeps its declared prefix. -/
def endpointPfxFor (m : ApiMetadataM) : String :=
  if m.serviceId == "S3" then "s3.dualstack" else m.endpointPfx

/-- globalEndpoint?.replace of a trailing .amazonaws.com, from
buildServiceClient. -/
def stripAmazonawsSuffix (s : String) : String :=
  if endsWithStr s ".amazonaws.com" then ⟨s.data.take (s.data.length - 14)⟩ else s

/-- Assembly of the final endpoint URL string from buildServiceClient:
a truthy fixed endpoint wins outright; otherwise
https:// + host prefix + (api. when the base domain is aws) +
(global endpoint prefix when truthy, else servicePfx.region) + . + base
domain. hostPfx embeds the hostPrefix fetch option. -/
def assembleEndpoint (fixedEp : Option String) (hostPfx : Option String)
    (baseDomain : String) (globalPfx : Option String)
    (servicePfx region : String) : String :=
  if optTruthy fixedEp then fixedEp.getD ""
  else "https://" ++ hostPfx.getD "" ++ (if baseDomain == "aws" then "api." else "")
    ++ (if optTruthy globalPfx then globalPfx.getD "" else servicePfx ++ "." ++ region)
    ++ "." ++ baseDomain

/-! ## Canonical error shape and the XML document abstraction -/

/-- Modelled from the spec: the canonical ServiceError record declared in
client/common.ts (absent from the sources): machine-readable code, human
message, optional secondary type field. -/
structure ServiceError where
  code : String
  message : String
  tfield : Option String := none
deriving DecidableEq, Repr

/-- Modelled from the spec: the XML document abstraction from encoding/xml.ts
(out of scope of the core sources): a node has a tag name, optional text
content, and child nodes. -/
inductive XmlNode where
  | mk (name : String) (content : Option String) (children : List XmlNode)

def XmlNode.name : XmlNode → String
  | .mk n _ _ => n

def XmlNode.content : XmlNode → Option String
  | .mk _ c _ => c

def XmlNode.children : XmlNode → List XmlNode
  | .mk _ _ cs => cs

/-- Modelled from the spec: first matching child, the first operation the
core consumes from the XML abstraction. -/
def XmlNode.first (x : XmlNode) (n : String) : Option XmlNode :=
  x.children.find? (fun c => c.name == n)

/-- Modelled from the spec: list of matching children of the first child
with the outer name, as used for getList(Errors, Error). -/
def XmlNode.getList (x : XmlNode) (outer inner : String) : List XmlNode :=
  match x.first outer with
  | some n => n.children.filter (fun c => c.name == inner)
  | none => []

/-- Text content of the first child with the given name, as used both by
the strings extraction and by the first(name, false, content) calls. -/
def XmlNode.strField (x : XmlNode) (n : String) : Option String :=
  (x.first n).bind XmlNode.content

/-- strings extraction with required Code, Message and Type, used for the
nested Error node of the ErrorResponse shape; none models the throw the
extraction raises when a required field is missing. -/
def stringsReqCMT (x : XmlNode) : Option ServiceError :=
  match x.strField "Code", x.strField "Message", x.strField "Type" with
  | some c, some m, some t => some { code := c, message := m, tfield := some t }
  | _, _, _ => none

/-- strings extraction with required Code and Message and optional Type,
used for the elements of the EC2-style Errors list. -/
def stringsReqCMoptT (x : XmlNode) : Option ServiceError :=
  match x.strField "Code", x.strField "Message" with
  | some c, some m => some { code := c, message := m, tfield := x.strField "Type" }
  | _, _ => none

/-- strings extraction with required Code and Message (optional Token-0 and
HostId extras are not part of the canonical record), used for the flat
Error root shape. -/
def stringsReqCM (x : XmlNode) : Option ServiceError :=
  match x.strField "Code", x.strField "Message" with
  | some c, some m => some { code := c, message := m, tfield := none }
  | _, _ => none

/-! ## Error classifier (handleErrorResponse in client/client.ts) -/

/-- The JSON payload observations the classifier makes on a parsed error
body: data.Error, data.RequestId, data.__type, data.message, data.Message. -/
structure JsonErrData where
  errorObj : Option ServiceError := none
  requestId : Option String := none
  typeField : Option String := none
  messageLower : Option String := none
  messageUpper : Option String := none
deriving DecidableEq, Repr

/-- The parsed form of an error-response body: what readXmlResult yields,
what response.json() yields, or plain text. A body that does not parse in
the branch the classifier takes is represented by the other constructors. -/
inductive RawBody where
  | xmlBody (doc : XmlNode)
  | jsonBody (data : JsonErrData)
  | textBody (text : String)

/-- The observable parts of an HTTP error response consumed by
handleErrorResponse. headerRequestId embeds the getRequestId(headers)
lookup from client/common.ts, modelled from the spec as the well-known
request-id header value. -/
structure ErrResp where
  status : Nat
  statusText : String
  contentType : Option String := none
  headerRequestId : Option String := none
  body : RawBody := .textBody ""

/-- Every way handleErrorResponse can leave: it never returns normally.
serviceError models a thrown AwsServiceError (error record plus request
id); unrecognizable models the final generic defect with its message;
extractFailure models a throw from a required-field strings extraction;
parseFailure models a throw from the XML or JSON parser. -/
inductive ClassifyResult where
  | serviceError (err : ServiceError) (requestId : Option String)
  | unrecognizable (message : String)
  | extractFailure
  | parseFailure
deriving DecidableEq, Repr

/-- The message of the generic defect; a null content type prints as the
text null inside a JavaScript template string. -/
def genericMsg (ct : Option String) : String :=
  "Unrecognizable error response of type " ++ ct.getD "null"

/-- The switch on the XML root tag name plus the trailing Exception-suffix
check from handleErrorResponse; none models falling through to the
generic failure. -/
def handleXmlShapes (x : XmlNode) (headerRid : Option String) : Option ClassifyResult :=
  let afterSwitch : Option ClassifyResult :=
    if x.name == "ErrorResponse" then
      match x.first "Error" with
      | some errNode =>
        some (match stringsReqCMT errNode with
          | some se => .serviceError se (x.strField "RequestId")
          | none => .extractFailure)
      | none => none
    else if x.name == "Response" then
      match x.getList "Errors" "Error" with
      | [] => none
      | e :: rest =>
        some (if ((e :: rest).map stringsReqCMoptT).all Option.isSome then
          match stringsReqCMoptT e with
          | some se => .serviceError se (x.strField "RequestID")
          | none => .extractFailure
        else .extractFailure)
    else if x.name == "Error" then
      some (match stringsReqCM x with
        | some se => .serviceError se (x.strField "RequestId")
        | none => .extractFailure)
    else none
  match afterSwitch with
  | some r => some r
  | none =>
    if endsWithStr x.name "Exception" then
      some (match x.strField "Message" with
        | some msg => .serviceError { code := x.name, message := msg, tfield := x.strField "Type" } headerRid
        | none => .extractFailure)
    else none

/-- Translation of handleErrorResponse(response, reqMethod): a HEAD request
is answered from the status line alone; otherwise the classifier
dispatches on content type and payload shape and falls through to the
generic unrecognizable defect. -/
def handleErrorResponseM (resp : ErrResp) (reqMethod : String) : ClassifyResult :=
  if reqMethod == "HEAD" then
    .serviceError
      { code := "Http" ++ toString resp.status
      , message := "HTTP error status: " ++ resp.statusText
      , tfield := none }
      resp.headerRequestId
  else
    let ct := resp.contentType
    if optStartsWith ct "text/xml" || optStartsWith ct "application/xml" || ctFalsy ct then
      match resp.body with
      | .xmlBody x =>
        match handleXmlShapes x resp.headerRequestId with
        | some r => r
        | none => .unrecognizable (genericMsg ct)
      | _ => .parseFailure
    else if optStartsWith ct "application/json" then
      match resp.body with
      | .jsonBody d =>
        match d.errorObj with
        | some e => if jsTruthyStr e.code then .serviceError e d.requestId
                    else .unrecognizable (genericMsg ct)
        | none => .unrecognizable (genericMsg ct)
      | _ => .parseFailure
    else if optStartsWith ct "application/x-amz-json-1." then
      match resp.body with
      | .jsonBody d =>
        if optTruthy d.typeField && optTruthy d.messageLower then
          .serviceError { code := d.typeField.getD "", message := d.messageLower.getD "", tfield := none }
            resp.headerRequestId
        else if optTruthy d.typeField && optTruthy d.messageUpper then
          .serviceError { code := d.typeField.getD "", message := d.messageUpper.getD "", tfield := none }
            resp.headerRequestId
        else .unrecognizable (genericMsg ct)
      | _ => .parseFailure
    else .unrecognizable (genericMsg ct)

/-- A recognized XML error shape: ErrorResponse with a nested Error node,
an EC2-style Response with a non-empty Errors list, a flat Error root, or
a root tag ending in Exception. -/
def xmlShapeMatches (x : XmlNode) : Bool :=
  (x.name == "ErrorResponse" && (x.first "Error").isSome)
  || (x.name == "Response" && !(x.getList "Errors" "Error").isEmpty)
  || x.name == "Error"
  || endsWithStr x.name "Exception"

/-- The condition under which the classifier reaches the final generic
failure for a non-HEAD request: the branch selected by the content type
inspects its parsed payload and no recognized shape matches, or the
content type matches no branch at all. -/
def fallsThrough (resp : ErrResp) : Bool :=
  let ct := resp.contentType
  if optStartsWith ct "text/xml" || optStartsWith ct "application/xml" || ctFalsy ct then
    match resp.body with
    | .xmlBody x => !xmlShapeMatches x
    | _ => false
  else if optStartsWith ct "application/json" then
    match resp.body with
    | .jsonBody d => !(match d.errorObj with
        | some e => jsTruthyStr e.code
        | none => false)
    | _ => false
  else if optStartsWith ct "application/x-amz-json-1." then
    match resp.body with
    | .jsonBody d => !((optTruthy d.typeField && optTruthy d.messageLower)
        || (optTruthy d.typeField && optTruthy d.messageUpper))
    | _ => false
  else true

/-! ## Shared dispatch (performRequest in BaseServiceClient) -/

/-- Every way the status branch of performRequest can end: returning the
response as success (warned records the unexpected-success log), throwing
what the error classifier throws, or the final BUG defect on a status
outside every known range. -/
inductive PerformOutcome where
  | success (warned : Bool)
  | thrown (t : ClassifyResult)
  | bugStatus (status : Nat)
deriving DecidableEq, Repr

/-- Translation of the response-status branch of performRequest: exact
match with config.responseCode (default 200) succeeds, statuses of at
least 400 are handed to handleErrorResponse which throws, remaining 2xx
statuses succeed with a warning, and everything else is the BUG defect. -/
def performRequestOutcome (responseCode : Option Nat) (reqMethod : String)
    (resp : ErrResp) : PerformOutcome :=
  if resp.status = responseCode.getD 200 then .success false
  else if 400 ≤ resp.status then .thrown (handleErrorResponseM resp reqMethod)
  else if 200 ≤ resp.status ∧ resp.status < 300 then .success true
  else .bugStatus resp.status

/-! ## Signing-region resolution (signed path of the signing fetcher) -/

/-- Translation of the region line of the signed path in buildServiceClient:
opts.region, else the fixed default us-east-1 when the metadata declares a
truthy global endpoint, else the factory region, else the credentials
region hint, else the missing-region throw (modelled as none). -/
def resolveSigningRegion (optsRegion globalEndpoint factoryRegion credsRegion :
    Option String) : Option String :=
  match optsRegion with
  | some r => some r
  | none =>
    if optTruthy globalEndpoint then some "us-east-1"
    else
      match factoryRegion with
      | some r => some r
      | none => credsRegion

/-- Modelled from the words of the specification, for refinement comparison
only: per-call override, then factory region, then credentials hint, then
failure unless the service is global, in which case the fixed default
region stands in. -/
def claimedSigningRegion (optsRegion globalEndpoint factoryRegion credsRegion :
    Option String) : Option String :=
  match optsRegion with
  | some r => some r
  | none =>
    match factoryRegion with
    | some r => some r
    | none =>
      match credsRegion with
      | some r => some r
      | none => if optTruthy globalEndpoint then some "us-east-1" else none

/-! ## S3 bucket subdomain rewrite (signing fetcher QUIRK block) -/

/-- The first path segment: everything after the leading character up to
the first slash or question mark, the [bucketName] destructuring of
urlPath.slice(1).split on slash-or-question-mark in the source. -/
def firstSeg (urlPath : String) : String :=
  ⟨(urlPath.data.drop 1).takeWhile (fun c => !(c == '/' || c == '?'))⟩

/-- Translation of the bucket host-routing block of the signing fetcher:
for service S3 with a truthy path, a falsy host prefix and a falsy fixed
endpoint, a non-empty dot-free first segment becomes the host prefix
(with a trailing dot) and is stripped from the path, re-rooting the rest
with a leading slash; otherwise path and host prefix are unchanged.
Returns the pair of the resulting path and host prefix. -/
def s3Rewrite (serviceId urlPath : String) (hostPfx fixedEp : Option String) :
    String × Option String :=
  if serviceId == "S3" && jsTruthyStr urlPath && !optTruthy hostPfx && !optTruthy fixedEp then
    let bucketName := firstSeg urlPath
    if bucketName.data.length > 0 && !bucketName.data.contains '.' then
      let path : String := ⟨urlPath.data.drop (bucketName.data.length + 1)⟩
      (if path.data.head? == some '/' then path else ⟨'/' :: path.data⟩,
       some (bucketName ++ "."))
    else (urlPath, hostPfx)
  else (urlPath, hostPfx)

/-! ## Query/EC2 protocol client (QueryServiceClient) -/

/-- The request bodies the query client can receive: absent, a form-encoded
parameter collection (URLSearchParams), or any other truthy value. -/
inductive QueryBody where
  | empty
  | searchParams (fields : List (String × String))
  | otherBody
deriving DecidableEq, Repr

/-- The parts of the request the query client contributes before the shared
dispatch: the accept header, the optional content type, the ordered body
fields (before form encoding), and the effective method. -/
structure QueryBuilt where
  accept : String
  contentType : Option String
  bodyFields : Option (List (String × String))
  method : String
deriving DecidableEq, Repr

/-- Translation of QueryServiceClient.performRequest: accept text/xml is
always set; a URLSearchParams body demands a POST method, and Action and
Version are placed ahead of the caller fields with the form content type
including the charset parameter; any other truthy body is the BUG throw. -/
def queryBuildRequest (serviceVersion action : String) (methodOpt : Option String)
    (body : QueryBody) : Except String QueryBuilt :=
  let method := methodOpt.getD "POST"
  match body with
  | .searchParams fields =>
    if method ≠ "POST" then .error "query is supposed to be POSTed"
    else .ok
      { accept := "text/xml"
      , contentType := some "application/x-www-form-urlencoded; charset=utf-8"
      , bodyFields := some (("Action", action) :: ("Version", serviceVersion) :: fields)
      , method := method }
  | .otherBody => .error "BUG: non-query based request body passed to query client"
  | .empty => .ok
      { accept := "text/xml", contentType := none, bodyFields := none, method := method }

/-! ## JSON protocol client (JsonServiceClient) -/

/-- Modelled from the spec: the native JSON value universe consumed by the
JSON client; the core consumes native JSON parse and stringify. -/
inductive JsonValue where
  | null
  | jbool (b : Bool)
  | jnum (n : Int)
  | jstr (s : String)
  | jarr (xs : List JsonValue)
  | jobj (fields : List (String × JsonValue))

/-- Minimal string escaping for the stringify model: quote and backslash. -/
def escapeJsonString (s : String) : String :=
  ⟨s.data.foldr (fun c acc =>
      if c == '"' then '\\' :: '"' :: acc
      else if c == '\\' then '\\' :: '\\' :: acc
      else c :: acc) []⟩

mutual

/-- Modelled from the spec: native JSON stringification. -/
def jsonStringify : JsonValue → String
  | .null => "null"
  | .jbool true => "true"
  | .jbool false => "false"
  | .jnum n => toString n
  | .jstr s => "\"" ++ escapeJsonString s ++ "\""
  | .jarr xs => "[" ++ jsonStringifyList xs ++ "]"
  | .jobj fs => "\x7b" ++ jsonStringifyFields fs ++ "\x7d"

/-- Comma-joined stringification of an array body. -/
def jsonStringifyList : List JsonValue → String
  | [] => ""
  | [x] => jsonStringify x
  | x :: y :: xs => jsonStringify x ++ "," ++ jsonStringifyList (y :: xs)

/-- Comma-joined stringification of object fields. -/
def jsonStringifyFields : List (String × JsonValue) → String
  | [] => ""
  | [(k, v)] => "\"" ++ escapeJsonString k ++ "\":" ++ jsonStringify v
  | (k, v) :: f :: fs =>
    "\"" ++ escapeJsonString k ++ "\":" ++ jsonStringify v ++ ","
      ++ jsonStringifyFields (f :: fs)

end

/-- JavaScript truthiness of a JSON value, governing the body test of the
JSON client: null, false, zero and the empty string are falsy. -/
def jsTruthyJson : JsonValue → Bool
  | .null => false
  | .jbool b => b
  | .jnum n => n ≠ 0
  | .jstr s => s ≠ ""
  | .jarr _ => true
  | .jobj _ => true

/-- The request bodies the JSON client can receive: absent, raw bytes
(Uint8Array), or a JSON value. -/
inductive JsonClientBody where
  | empty
  | bytes (data : List Nat)
  | value (v : JsonValue)

/-- The outgoing body after the JSON client: nothing, the raw bytes passed
through, or the UTF-8 encoding of a serialized string. -/
inductive BuiltBody where
  | noBody
  | rawBytes (data : List Nat)
  | encodedText (s : String)

/-- The parts of the request the JSON client contributes: the x-amz-target
header, the accept header, the optional content type, and the body. -/
structure JsonBuilt where
  xAmzTargetHdr : String
  accept : String
  contentType : Option String
  outBody : BuiltBody

/-- Translation of JsonServiceClient.performRequest: x-amz-target is the
service target joined to the action by a dot, accept carries the JSON
protocol version; a Uint8Array body passes through untouched while any
other truthy body is stringified with the versioned content type. -/
def jsonBuildRequest (serviceTarget jsonVersion action : String)
    (body : JsonClientBody) : JsonBuilt :=
  let base : JsonBuilt :=
    { xAmzTargetHdr := serviceTarget ++ "." ++ action
    , accept := "application/x-amz-json-" ++ jsonVersion
    , contentType := none
    , outBody := .noBody }
  match body with
  | .bytes data => { base with outBody := .rawBytes data }
  | .value v =>
    if jsTruthyJson v then
      { base with
        contentType := some ("application/x-amz-json-" ++ jsonVersion)
        outBody := .encodedText (jsonStringify v) }
    else base
  | .empty => base

/-! ## Factory construction (BaseApiFactory constructor) -/

/-- Modelled from the spec: the Credentials record of client/common.ts
(absent from the sources): key pair, optional session token, optional
region hint. -/
structure Credentials where
  awsAccessKeyId : String
  awsSecretKey : String
  sessionToken : Option String := none
  region : Option String := none

/-- A credentials provider: asynchronously obtain current credentials,
fallibly; modelled as a function from the trivial request. -/
def CredentialsProvider : Type := Unit → Except String Credentials

/-- Model of the JavaScript includes test on strings: the needle occurs as
a contiguous substring (an infix of the character list). -/
def includesSubstr (s needle : String) : Bool := decide (needle.data <:+: s.data)

/-- The options bag accepted by the BaseApiFactory constructor. fixedEp and
baseDom embed the fixedEndpoint and baseDomain options under shortened
names. -/
structure FactoryOpts where
  credentialProvider : Option CredentialsProvider := none
  credentials : Option Credentials := none
  region : Option String := none
  fixedEp : Option String := none
  baseDom : Option String := none

/-- The private state of a constructed factory. -/
structure ClientFactory where
  getCreds : CredentialsProvider
  region : Option String
  fixedEp : Option String
  baseDom : Option String

/-- Translation of the BaseApiFactory constructor: a fixed credentials
value wraps into a constant provider, else a provider is required, else
the construction throws; the region falls back to the environment hint;
a fixed endpoint must contain a scheme separator and suppresses the base
domain override. -/
def baseApiFactory (opts : FactoryOpts) (envRegion : Option String) :
    Except String ClientFactory :=
  let providerOpt : Option CredentialsProvider :=
    match opts.credentials with
    | some c => some (fun _ => .ok c)
    | none => opts.credentialProvider
  match providerOpt with
  | none => .error "No credentials or credential source provided -- you must provide one to use this class directly"
  | some provider =>
    let region := match opts.region with
      | some r => some r
      | none => envRegion
    match opts.fixedEp with
    | some fe =>
      if includesSubstr fe "://" then
        .ok { getCreds := provider, region := region, fixedEp := some fe, baseDom := none }
      else .error "If provided, fixedEndpoint must be a full URL including https:// or http://"
    | none =>
      .ok { getCreds := provider, region := region, fixedEp := none, baseDom := opts.baseDom }

/-! ## Helper lemmas -/

theorem startsWith_append_self (pre rest : String) :
    startsWithStr (pre ++ rest) pre = true := by
  simp [startsWithStr, data_append, List.prefix_append]

theorem mk_cons_ne_empty (ch : Char) (cs : List Char) :
    (String.mk (ch :: cs)) ≠ "" := by
  intro h
  have h2 : (ch :: cs : List Char) = ([] : List Char) := congrArg String.data h
  cases h2

theorem append_not_mem_dualstack (pre rest : String)
    (h : ∀ s ∈ dualStackEc2Regions, ¬ pre.data <+: s.data) :
    (pre ++ rest) ∉ dualStackEc2Regions := by
  intro hmem
  apply h _ hmem
  rw [data_append]
  exact List.prefix_append _ _

theorem cn_not_dualstack (rest : String) :
    ("cn-" ++ rest) ∉ dualStackEc2Regions := by
  apply append_not_mem_dualstack
  intro s hs
  fin_cases hs <;> decide

theorem iso_not_dualstack (rest : String) :
    ("us-iso-" ++ rest) ∉ dualStackEc2Regions := by
  apply append_not_mem_dualstack
  intro s hs
  fin_cases hs <;> decide

theorem isob_not_dualstack (rest : String) :
    ("us-isob-" ++ rest) ∉ dualStackEc2Regions := by
  apply append_not_mem_dualstack
  intro s hs
  fin_cases hs <;> decide

theorem sw_iso_not_cn (rest : String) :
    startsWithStr ("us-iso-" ++ rest) "cn-" = false := by
  simp only [startsWithStr, data_append, decide_eq_false_iff_not]
  intro h
  simp [List.cons_prefix_cons] at h

theorem sw_isob_not_cn (rest : String) :
    startsWithStr ("us-isob-" ++ rest) "cn-" = false := by
  simp only [startsWithStr, data_append, decide_eq_false_iff_not]
  intro h
  simp [List.cons_prefix_cons] at h

theorem sw_isob_not_iso (rest : String) :
    startsWithStr ("us-isob-" ++ rest) "us-iso-" = false := by
  simp only [startsWithStr, data_append, decide_eq_false_iff_not]
  intro h
  simp [List.cons_prefix_cons] at h

/-! ## Claim theorems -/

/-- C1: the shared dispatch classifies every response by status alone: a
status equal to the declared expected code (default 200) is returned as
plain success; otherwise a status of 400 or more is handed to the error
classifier and the call throws, never producing a success; a remaining
2xx status is returned as success after the warning log; every other
status raises the fatal BUG defect. The four cases are characterized
exactly and exclusively. -/
theorem performRequest_status_taxonomy (rc : Option Nat) (method : String)
    (resp : ErrResp) :
    (performRequestOutcome rc method resp = .success false ↔
      resp.status = rc.getD 200) ∧
    ((∃ t, performRequestOutcome rc method resp = .thrown t) ↔
      (resp.status ≠ rc.getD 200 ∧ 400 ≤ resp.status)) ∧
    (performRequestOutcome rc method resp = .success true ↔
      (resp.status ≠ rc.getD 200 ∧ 200 ≤ resp.status ∧ resp.status < 300)) ∧
    ((∃ s, performRequestOutcome rc method resp = .bugStatus s) ↔
      (resp.status ≠ rc.getD 200 ∧ resp.status < 400 ∧
        (resp.status < 200 ∨ 300 ≤ resp.status))) := by
  unfold performRequestOutcome
  split_ifs with h1 h2 h3 <;> simp_all <;> omega

/-- C3 counterexample: with no per-call override, a truthy global endpoint
and a configured factory region, the code signs with the fixed default
region us-east-1 while the claimed precedence (factory region before the
global-endpoint default) demands eu-west-1. -/
theorem signingRegion_global_preempts_factory :
    resolveSigningRegion none (some "iam.amazonaws.com") (some "eu-west-1") none
      = some "us-east-1" ∧
    claimedSigningRegion none (some "iam.amazonaws.com") (some "eu-west-1") none
      = some "eu-west-1" ∧
    (some "us-east-1" : Option String) ≠ some "eu-west-1" := by
  exact ⟨by decide, by decide, by decide⟩

/-- C3 amended: the signing region is the per-call override when present;
otherwise, when the service metadata declares a non-empty global endpoint
the fixed default region us-east-1 is used regardless of the factory and
credentials regions; otherwise the factory region, then the credentials
hint; when all are absent the call fails with the missing-region error
(modelled as none). -/
theorem resolveSigningRegion_precedence :
    (∀ (r : String) (g f c : Option String),
      resolveSigningRegion (some r) g f c = some r) ∧
    (∀ (ch : Char) (cs : List Char) (f c : Option String),
      resolveSigningRegion none (some (String.mk (ch :: cs))) f c = some "us-east-1") ∧
    (∀ (f : String) (c : Option String),
      resolveSigningRegion none none (some f) c = some f) ∧
    (∀ c : String, resolveSigningRegion none none none (some c) = some c) ∧
    resolveSigningRegion none none none none = none := by
  refine ⟨fun r g f c => rfl, ?_, fun f c => rfl, fun c => rfl, rfl⟩
  intro ch cs f c
  simp [resolveSigningRegion, optTruthy, jsTruthyStr, mk_cons_ne_empty ch cs]

/-- C6: the partition base domain is selected by region prefix after the
EC2 dual-stack allow-list check: cn- regions map to the China domain,
us-iso- regions to the isolated domain, us-isob- regions to the
isolated-B domain; EC2 gets the aws domain exactly for allow-listed
regions; and the standard commercial domain is returned exactly when no
allow-list hit and no special prefix applies. -/
theorem getRootDomain_partition_selection :
    (∀ sid rest : String, getRootDomain sid ("cn-" ++ rest) = "amazonaws.com.cn") ∧
    (∀ sid rest : String, getRootDomain sid ("us-iso-" ++ rest) = "c2s.ic.gov") ∧
    (∀ sid rest : String, getRootDomain sid ("us-isob-" ++ rest) = "sc2s.sgov.gov") ∧
    (∀ region : String, getRootDomain "EC2" region = "aws" ↔
      dualStackEc2Regions.contains region = true) ∧
    (∀ sid region : String, getRootDomain sid region = "amazonaws.com" ↔
      ((sid == "EC2" && dualStackEc2Regions.contains region) = false ∧
       startsWithStr region "cn-" = false ∧
       startsWithStr region "us-iso-" = false ∧
       startsWithStr region "us-isob-" = false)) := by
  refine ⟨?_, ?_, ?_, ?_, ?_⟩
  · intro sid rest
    simp [getRootDomain, cn_not_dualstack rest, startsWith_append_self]
  · intro sid rest
    simp [getRootDomain, iso_not_dualstack rest, sw_iso_not_cn rest,
      startsWith_append_self]
  · intro sid rest
    simp [getRootDomain, isob_not_dualstack rest, sw_isob_not_cn rest,
      sw_isob_not_iso rest, startsWith_append_self]
  · intro region
    unfold getRootDomain
    split_ifs with h1 h2 h3 h4 <;> simp_all
  · intro sid region
    unfold getRootDomain
    split_ifs with h1 h2 h3 h4 <;> simp_all

/-- C5 counterexample: the region cn-north-1 is outside the only fixed
dual-stack allow-list in the program, yet the S3 endpoint prefix is still
the dualstack one and the assembled hostname uses the dualstack path:
the storage-service half of the claim (dualstack only for allow-listed
regions) is false because the S3 choice ignores the region entirely. -/
theorem s3_dualstack_outside_allowlist :
    ("cn-north-1" ∉ dualStackEc2Regions) ∧
    endpointPfxFor { serviceId := "S3", endpointPfx := "s3" } = "s3.dualstack" ∧
    assembleEndpoint none none (getRootDomain "S3" "cn-north-1") none
      (endpointPfxFor { serviceId := "S3", endpointPfx := "s3" }) "cn-north-1"
      = "https://s3.dualstack.cn-north-1.amazonaws.com.cn" := by
  exact ⟨by decide, by decide, by decide⟩

/-- C5 amended: only the compute service is gated by the fixed region
allow-list — EC2 resolves to the distinct aws base domain (and hence the
api. dualstack endpoint form) exactly for allow-listed regions — while
the storage service S3 uses its dualstack endpoint prefix
unconditionally, for every region. -/
theorem dualstack_gating :
    (∀ region : String, getRootDomain "EC2" region = "aws" ↔
      region ∈ dualStackEc2Regions) ∧
    (∀ (ep : String) (g : Option String),
      endpointPfxFor { serviceId := "S3", endpointPfx := ep, globalEndpoint := g }
        = "s3.dualstack") ∧
    (∀ (ep : String) (g : Option String),
      endpointPfxFor { serviceId := "EC2", endpointPfx := ep, globalEndpoint := g }
        = ep) ∧
    assembleEndpoint none none (getRootDomain "S3" "us-east-1") none
      (endpointPfxFor { serviceId := "S3", endpointPfx := "s3" }) "us-east-1"
      = "https://s3.dualstack.us-east-1.amazonaws.com" ∧
    assembleEndpoint none none (getRootDomain "EC2" "us-west-2") none
      (endpointPfxFor { serviceId := "EC2", endpointPfx := "ec2" }) "us-west-2"
      = "https://api.ec2.us-west-2.aws" ∧
    assembleEndpoint none none (getRootDomain "EC2" "ap-northeast-1") none
      (endpointPfxFor { serviceId := "EC2", endpointPfx := "ec2" }) "ap-northeast-1"
      = "https://ec2.ap-northeast-1.amazonaws.com" := by
  refine ⟨?_, ?_, ?_, by decide, by decide, by decide⟩
  · intro region
    unfold getRootDomain
    split_ifs with h1 h2 h3 h4 <;> simp_all
  · intro ep g
    simp [endpointPfxFor]
  · intro ep g
    simp [endpointPfxFor]

/-- C7 counterexample: the query client sets the content type to the
form-urlencoded value carrying an explicit charset parameter, not to the
bare media type the claim states. -/
theorem query_contentType_has_charset :
    queryBuildRequest "2012-11-05" "ListQueues" none (.searchParams []) =
      .ok { accept := "text/xml"
          , contentType := some "application/x-www-form-urlencoded; charset=utf-8"
          , bodyFields := some [("Action", "ListQueues"), ("Version", "2012-11-05")]
          , method := "POST" } ∧
    (some "application/x-www-form-urlencoded; charset=utf-8" : Option String) ≠
      some "application/x-www-form-urlencoded" := by
  exact ⟨rfl, by decide⟩

/-- C7 amended: a Query/EC2 call with a form-encoded parameter collection
injects Action and Version ahead of all caller-supplied fields, sets
accept to text/xml and content-type to
application/x-www-form-urlencoded; charset=utf-8; a method other than
POST together with a search-params body raises an error, and a body of
any other kind raises the usage (BUG) error rather than being coerced;
an absent body sets no content type. -/
theorem queryBuildRequest_contract :
    (∀ (v a : String) (fields : List (String × String)),
      queryBuildRequest v a none (.searchParams fields) =
        .ok { accept := "text/xml"
            , contentType := some "application/x-www-form-urlencoded; charset=utf-8"
            , bodyFields := some (("Action", a) :: ("Version", v) :: fields)
            , method := "POST" }) ∧
    (∀ (v a m : String) (fields : List (String × String)),
      queryBuildRequest v a (some m) (.searchParams fields) =
        if m = "POST" then
          .ok { accept := "text/xml"
              , contentType := some "application/x-www-form-urlencoded; charset=utf-8"
              , bodyFields := some (("Action", a) :: ("Version", v) :: fields)
              , method := m }
        else .error "query is supposed to be POSTed") ∧
    (∀ (v a : String) (m : Option String),
      queryBuildRequest v a m .otherBody =
        .error "BUG: non-query based request body passed to query client") ∧
    (∀ v a : String, queryBuildRequest v a none .empty =
      .ok { accept := "text/xml", contentType := none, bodyFields := none
          , method := "POST" }) := by
  refine ⟨?_, ?_, fun v a m => rfl, fun v a => rfl⟩
  · intro v a fields
    simp [queryBuildRequest]
  · intro v a m fields
    by_cases h : m = "POST" <;> simp [queryBuildRequest, h]

/-- C8: the JSON-RPC client sets the x-amz-target header to exactly the
target joined to the action by a dot and the accept header to the
versioned JSON media type for every body; an object body is serialized
with JSON stringification with the versioned content type; raw bytes
pass through without a content type. -/
theorem jsonBuildRequest_contract :
    (∀ (t ver a : String) (body : JsonClientBody),
      (jsonBuildRequest t ver a body).xAmzTargetHdr = t ++ "." ++ a ∧
      (jsonBuildRequest t ver a body).accept = "application/x-amz-json-" ++ ver) ∧
    (∀ (t ver a : String) (fs : List (String × JsonValue)),
      jsonBuildRequest t ver a (.value (.jobj fs)) =
        { xAmzTargetHdr := t ++ "." ++ a
        , accept := "application/x-amz-json-" ++ ver
        , contentType := some ("application/x-amz-json-" ++ ver)
        , outBody := .encodedText (jsonStringify (.jobj fs)) }) ∧
    (∀ (t ver a : String) (data : List Nat),
      jsonBuildRequest t ver a (.bytes data) =
        { xAmzTargetHdr := t ++ "." ++ a
        , accept := "application/x-amz-json-" ++ ver
        , contentType := none
        , outBody := .rawBytes data }) := by
  refine ⟨?_, fun t ver a fs => rfl, fun t ver a data => rfl⟩
  intro t ver a body
  cases body with
  | empty => exact ⟨rfl, rfl⟩
  | bytes data => exact ⟨rfl, rfl⟩
  | value v =>
    by_cases hv : jsTruthyJson v = true <;> simp [jsonBuildRequest, hv]

theorem takeWhile_append_all {p : Char → Bool} (l₁ l₂ : List Char)
    (h : ∀ c ∈ l₁, p c = true) :
    (l₁ ++ l₂).takeWhile p = l₁ ++ l₂.takeWhile p := by
  induction l₁ with
  | nil => simp
  | cons a l ih =>
    simp only [List.cons_append, List.takeWhile_cons]
    rw [h a (by simp)]
    simp [ih (fun c hc => h c (by simp [hc]))]

theorem mk_data (s : String) : String.mk s.data = s := by
  cases s
  rfl

theorem scheme_string_ne_empty (fe1 fe2 : String) : (fe1 ++ "://" ++ fe2) ≠ "" := by
  intro h
  have h2 := congrArg String.data h
  rw [data_append, data_append] at h2
  simp at h2

theorem includes_scheme (fe1 fe2 : String) :
    includesSubstr (fe1 ++ "://" ++ fe2) "://" = true := by
  simp only [includesSubstr, decide_eq_true_eq]
  rw [data_append, data_append]
  exact ⟨fe1.data, fe2.data, rfl⟩

/-- C4: a storage-service (S3) call whose first path segment is non-empty
and dot-free, with no explicit host prefix and no fixed endpoint in
effect, is rewritten to subdomain form: the segment becomes the host
prefix with a trailing dot and is stripped from the path; the rewrite is
suppressed by a fixed endpoint or an existing host prefix, and a first
segment containing a dot leaves the call unmodified. -/
theorem s3Rewrite_bucket_subdomain (bucket rest : String)
    (hne : bucket.data ≠ [])
    (hdot : '.' ∉ bucket.data)
    (hsl : '/' ∉ bucket.data)
    (hq : '?' ∉ bucket.data) :
    s3Rewrite "S3" ("/" ++ bucket ++ "/" ++ rest) none none
      = ("/" ++ rest, some (bucket ++ ".")) ∧
    (∀ (hp : Option String) (fe1 fe2 : String),
      s3Rewrite "S3" ("/" ++ bucket ++ "/" ++ rest) hp (some (fe1 ++ "://" ++ fe2))
        = ("/" ++ bucket ++ "/" ++ rest, hp)) ∧
    (∀ (c : Char) (cs : List Char) (fe : Option String),
      s3Rewrite "S3" ("/" ++ bucket ++ "/" ++ rest) (some (String.mk (c :: cs))) fe
        = ("/" ++ bucket ++ "/" ++ rest, some (String.mk (c :: cs)))) ∧
    (∀ ext : String, s3Rewrite "S3" ("/" ++ bucket ++ "." ++ ext) none none
      = ("/" ++ bucket ++ "." ++ ext, none)) := by
  have hP : ("/" ++ bucket ++ "/" ++ rest).data
      = '/' :: (bucket.data ++ ('/' :: rest.data)) := by
    simp [data_append]
  have hPne : jsTruthyStr ("/" ++ bucket ++ "/" ++ rest) = true := by
    simp only [jsTruthyStr, decide_eq_true_eq]
    intro h
    have h2 := congrArg String.data h
    rw [hP] at h2
    cases h2
  have hpred : ∀ c ∈ bucket.data, (!(c == '/' || c == '?')) = true := by
    intro c hc
    have hc1 : c ≠ '/' := fun h => hsl (h ▸ hc)
    have hc2 : c ≠ '?' := fun h => hq (h ▸ hc)
    simp [hc1, hc2]
  refine ⟨?_, ?_, ?_, ?_⟩
  · have hseg : firstSeg ("/" ++ bucket ++ "/" ++ rest) = String.mk bucket.data := by
      simp only [firstSeg, hP, List.drop_succ_cons, List.drop_zero]
      rw [takeWhile_append_all bucket.data ('/' :: rest.data) hpred]
      simp [List.takeWhile_cons]
    have hcont : (bucket.data.contains '.') = false := by
      rw [Bool.eq_false_iff]
      intro hc
      exact hdot (List.elem_iff.mp hc)
    have hlen : 0 < bucket.data.length := List.length_pos.mpr hne
    have hdrop : ("/" ++ bucket ++ "/" ++ rest).data.drop (bucket.data.length + 1)
        = '/' :: rest.data := by
      rw [hP, List.drop_succ_cons, List.drop_left]
    have hslash : (("/" ++ rest).data : List Char) = '/' :: rest.data := by
      simp [data_append]
    unfold s3Rewrite
    simp only [hseg, hPne, hcont, hlen, mk_data, optTruthy, Bool.not_false,
      Bool.and_true, Bool.and_self]
    simp only [hdrop, ← hslash, mk_data]
    simp
  · intro hp fe1 fe2
    have hfe : optTruthy (some (fe1 ++ "://" ++ fe2)) = true := by
      simp [optTruthy, jsTruthyStr, scheme_string_ne_empty fe1 fe2]
    simp [s3Rewrite, hfe]
  · intro c cs fe
    have hhp : optTruthy (some (String.mk (c :: cs))) = true := by
      simp [optTruthy, jsTruthyStr, mk_cons_ne_empty c cs]
    simp [s3Rewrite, hhp]
  · intro ext
    have hQ : ("/" ++ bucket ++ "." ++ ext).data
        = '/' :: (bucket.data ++ ('.' :: ext.data)) := by
      simp [data_append]
    have hQne : jsTruthyStr ("/" ++ bucket ++ "." ++ ext) = true := by
      simp only [jsTruthyStr, decide_eq_true_eq]
      intro h
      have h2 := congrArg String.data h
      rw [hQ] at h2
      cases h2
    have hseg : firstSeg ("/" ++ bucket ++ "." ++ ext)
        = String.mk (bucket.data ++ ('.' :: (ext.data.takeWhile fun c => !(c == '/' || c == '?')))) := by
      simp only [firstSeg, hQ, List.drop_succ_cons, List.drop_zero]
      rw [takeWhile_append_all bucket.data ('.' :: ext.data) hpred]
      simp [List.takeWhile_cons]
    have hcont : ((bucket.data ++ ('.' :: (ext.data.takeWhile fun c => !(c == '/' || c == '?')))).contains '.') = true := by
      have : '.' ∈ bucket.data ++ ('.' :: (ext.data.takeWhile fun c => !(c == '/' || c == '?'))) := by
        simp
      rw [← List.elem_iff] at this
      exact this
    simp [s3Rewrite, hseg, hQne, optTruthy, hcont]

/-- C4 witness: the rewrite at the concrete documented example, path
/my-bucket/key with no host prefix and no fixed endpoint. -/
theorem s3Rewrite_bucket_subdomain_witness :
    ("my-bucket" : String).data ≠ [] ∧ '.' ∉ ("my-bucket" : String).data ∧
    s3Rewrite "S3" ("/" ++ "my-bucket" ++ "/" ++ "key") none none
      = ("/" ++ "key", some ("my-bucket" ++ ".")) :=
  ⟨by decide, by decide,
    (s3Rewrite_bucket_subdomain "my-bucket" "key"
      (by decide) (by decide) (by decide) (by decide)).1⟩

/-- C9: factory construction with neither a credentials value nor a
provider throws the configuration error; a fixed credentials value wraps
into a constant provider that always resolves to it; a fixed endpoint
without a scheme separator throws the configuration error; and when both
a (well-formed) fixed endpoint and a base-domain override are supplied
the fixed endpoint is kept and the base-domain override is dropped. -/
theorem baseApiFactory_construction (creds : Credentials) (p : CredentialsProvider)
    (r bd env : Option String) (feBad fe1 fe2 : String)
    (hbad : includesSubstr feBad "://" = false) :
    baseApiFactory {} env =
      .error "No credentials or credential source provided -- you must provide one to use this class directly" ∧
    (∃ f, baseApiFactory { credentials := some creds, region := r } env = .ok f ∧
      (∀ u, f.getCreds u = .ok creds)) ∧
    baseApiFactory { credentialProvider := some p, fixedEp := some feBad } env =
      .error "If provided, fixedEndpoint must be a full URL including https:// or http://" ∧
    (∃ f, baseApiFactory
        { credentialProvider := some p, fixedEp := some (fe1 ++ "://" ++ fe2), baseDom := bd }
        env = .ok f ∧
      f.fixedEp = some (fe1 ++ "://" ++ fe2) ∧ f.baseDom = none) := by
  refine ⟨rfl, ⟨_, rfl, fun u => rfl⟩, ?_, ?_⟩
  · simp [baseApiFactory, hbad]
  · simp only [baseApiFactory, includes_scheme fe1 fe2, if_true]
    exact ⟨_, rfl, rfl, rfl⟩

/-- C9 witness: the construction facts at concrete inputs. -/
theorem baseApiFactory_construction_witness :
    includesSubstr "localhost:9000" "://" = false ∧
    baseApiFactory {} none =
      .error "No credentials or credential source provided -- you must provide one to use this class directly" :=
  ⟨by decide,
    (baseApiFactory_construction
      { awsAccessKeyId := "AKIAEXAMPLE", awsSecretKey := "secretExample" }
      (fun _ => .ok { awsAccessKeyId := "AKIAEXAMPLE", awsSecretKey := "secretExample" })
      none none none "localhost:9000" "http" "localhost:9000" (by decide)).1⟩

theorem handleXmlShapes_not_generic (x : XmlNode) (rid : Option String)
    (r : ClassifyResult) (h : handleXmlShapes x rid = some r) :
    ∀ m, r ≠ .unrecognizable m := by
  intro m hr
  subst hr
  cases h1 : x.name == "ErrorResponse" with
  | true =>
    cases hfe : x.first "Error" with
    | some e =>
      cases hst : stringsReqCMT e with
      | some se => simp [handleXmlShapes, h1, hfe, hst] at h
      | none => simp [handleXmlShapes, h1, hfe, hst] at h
    | none =>
      cases h4 : endsWithStr x.name "Exception" with
      | true =>
        cases hmsg : x.strField "Message" with
        | some msg => simp [handleXmlShapes, h1, hfe, h4, hmsg] at h
        | none => simp [handleXmlShapes, h1, hfe, h4, hmsg] at h
      | false => simp [handleXmlShapes, h1, hfe, h4] at h
  | false =>
    cases h2 : x.name == "Response" with
    | true =>
      cases hl : x.getList "Errors" "Error" with
      | nil =>
        cases h4 : endsWithStr x.name "Exception" with
        | true =>
          cases hmsg : x.strField "Message" with
          | some msg => simp [handleXmlShapes, h1, h2, hl, h4, hmsg] at h
          | none => simp [handleXmlShapes, h1, h2, hl, h4, hmsg] at h
        | false => simp [handleXmlShapes, h1, h2, hl, h4] at h
      | cons e es =>
        simp [handleXmlShapes, h1, h2, hl] at h
        repeat split at h
        all_goals simp_all
    | false =>
      cases h3 : x.name == "Error" with
      | true =>
        cases hst : stringsReqCM x with
        | some se => simp [handleXmlShapes, h1, h2, h3, hst] at h
        | none => simp [handleXmlShapes, h1, h2, h3, hst] at h
      | false =>
        cases h4 : endsWithStr x.name "Exception" with
        | true =>
          cases hmsg : x.strField "Message" with
          | some msg => simp [handleXmlShapes, h1, h2, h3, h4, hmsg] at h
          | none => simp [handleXmlShapes, h1, h2, h3, h4, hmsg] at h
        | false => simp [handleXmlShapes, h1, h2, h3, h4] at h

theorem handleXmlShapes_none_iff (x : XmlNode) (rid : Option String) :
    handleXmlShapes x rid = none ↔ xmlShapeMatches x = false := by
  cases h1 : x.name == "ErrorResponse" with
  | true =>
    have hn : x.name = "ErrorResponse" := eq_of_beq h1
    cases hfe : x.first "Error" with
    | some e =>
      simp [handleXmlShapes, xmlShapeMatches, h1, hfe]
    | none =>
      have hex : endsWithStr x.name "Exception" = false := by rw [hn]; decide
      simp [handleXmlShapes, xmlShapeMatches, h1, hfe, hex, hn]
  | false =>
    cases h2 : x.name == "Response" with
    | true =>
      have hn : x.name = "Response" := eq_of_beq h2
      cases hl : x.getList "Errors" "Error" with
      | nil =>
        have hex : endsWithStr x.name "Exception" = false := by rw [hn]; decide
        simp [handleXmlShapes, xmlShapeMatches, h1, h2, hl, hex, hn]
      | cons e es =>
        simp [handleXmlShapes, xmlShapeMatches, h1, h2, hl]
    | false =>
      cases h3 : x.name == "Error" with
      | true => simp [handleXmlShapes, xmlShapeMatches, h1, h2, h3]
      | false =>
        cases h4 : endsWithStr x.name "Exception" with
        | true => simp [handleXmlShapes, xmlShapeMatches, h1, h2, h3, h4]
        | false => simp [handleXmlShapes, xmlShapeMatches, h1, h2, h3, h4]

/-- C2: the error classifier never returns normally and classifies as the
code does: a HEAD request is answered by a ServiceError synthesized from
the status line alone (code Http followed by the status, message from
the status text), independent of body and content type; and for every
method the generic unrecognizable-response defect is thrown precisely
when the method is not HEAD and the branch selected by the content type
finds no recognized payload shape. -/
theorem handleErrorResponse_never_returns (resp : ErrResp) :
    (handleErrorResponseM resp "HEAD" = .serviceError
      { code := "Http" ++ toString resp.status
      , message := "HTTP error status: " ++ resp.statusText
      , tfield := none } resp.headerRequestId) ∧
    (∀ method : String,
      (∃ e rid2, handleErrorResponseM resp method = .serviceError e rid2) ∨
      (∃ msg, handleErrorResponseM resp method = .unrecognizable msg) ∨
      handleErrorResponseM resp method = .extractFailure ∨
      handleErrorResponseM resp method = .parseFailure) ∧
    (∀ method : String,
      handleErrorResponseM resp method
          = .unrecognizable (genericMsg resp.contentType) ↔
        (method ≠ "HEAD" ∧ fallsThrough resp = true)) := by
  refine ⟨?_, ?_, ?_⟩
  · simp [handleErrorResponseM]
  · intro method
    cases hv : handleErrorResponseM resp method with
    | serviceError e rid2 => exact Or.inl ⟨e, rid2, rfl⟩
    | unrecognizable msg => exact Or.inr (Or.inl ⟨msg, rfl⟩)
    | extractFailure => exact Or.inr (Or.inr (Or.inl rfl))
    | parseFailure => exact Or.inr (Or.inr (Or.inr rfl))
  · intro method
    by_cases hm : method = "HEAD"
    · simp [handleErrorResponseM, hm]
    · have hmb : (method == "HEAD") = false := by simp [hm]
      by_cases hxml : (optStartsWith resp.contentType "text/xml"
          || optStartsWith resp.contentType "application/xml"
          || ctFalsy resp.contentType) = true
      · cases hb : resp.body with
        | xmlBody x =>
          cases hs : handleXmlShapes x resp.headerRequestId with
          | some r =>
            have hmatch : xmlShapeMatches x = true := by
              cases hxs : xmlShapeMatches x with
              | true => rfl
              | false =>
                rw [(handleXmlShapes_none_iff x resp.headerRequestId).mpr hxs] at hs
                cases hs
            have hng := handleXmlShapes_not_generic x resp.headerRequestId r hs
            simp [handleErrorResponseM, fallsThrough, hmb, hxml, hb, hs, hmatch,
              hng (genericMsg resp.contentType), hm]
          | none =>
            have hmatch : xmlShapeMatches x = false :=
              (handleXmlShapes_none_iff x resp.headerRequestId).mp hs
            simp [handleErrorResponseM, fallsThrough, hmb, hxml, hb, hs, hmatch, hm]
        | jsonBody d =>
          simp [handleErrorResponseM, fallsThrough, hmb, hxml, hb, hm]
        | textBody t =>
          simp [handleErrorResponseM, fallsThrough, hmb, hxml, hb, hm]
      · by_cases hjson : optStartsWith resp.contentType "application/json" = true
        · cases hb : resp.body with
          | jsonBody d =>
            cases hd : d.errorObj with
            | some e =>
              by_cases hcode : jsTruthyStr e.code = true
              · simp [handleErrorResponseM, fallsThrough, hmb, hxml, hjson, hb,
                  hd, hcode, hm]
              · simp [handleErrorResponseM, fallsThrough, hmb, hxml, hjson, hb,
                  hd, hcode, hm]
            | none =>
              simp [handleErrorResponseM, fallsThrough, hmb, hxml, hjson, hb, hd, hm]
          | xmlBody x =>
            simp [handleErrorResponseM, fallsThrough, hmb, hxml, hjson, hb, hm]
          | textBody t =>
            simp [handleErrorResponseM, fallsThrough, hmb, hxml, hjson, hb, hm]
        · by_cases hamz : optStartsWith resp.contentType "application/x-amz-json-1." = true
          · cases hb : resp.body with
            | jsonBody d =>
              by_cases h1 : (optTruthy d.typeField && optTruthy d.messageLower) = true
              · simp [handleErrorResponseM, fallsThrough, hmb, hxml, hjson, hamz,
                  hb, h1, hm]
              · by_cases h2 : (optTruthy d.typeField && optTruthy d.messageUpper) = true
                · simp [handleErrorResponseM, fallsThrough, hmb, hxml, hjson, hamz,
                    hb, h1, h2, hm]
                · simp [handleErrorResponseM, fallsThrough, hmb, hxml, hjson, hamz,
                    hb, h1, h2, hm]
            | xmlBody x =>
              simp [handleErrorResponseM, fallsThrough, hmb, hxml, hjson, hamz, hb, hm]
            | textBody t =>
              simp [handleErrorResponseM, fallsThrough, hmb, hxml, hjson, hamz, hb, hm]
          · simp [handleErrorResponseM, fallsThrough, hmb, hxml, hjson, hamz, hm]

end AwsApi
